import Mathlib

/-!
Verification of the Adafruit_LTR390 I2C sensor driver.

The driver (src/Adafruit_LTR390.cpp, Adafruit_LTR390.h) is a thin layer over
the Adafruit_BusIO register/bitfield accessors.  The accessor layer itself is
not part of the repository sources, so its semantics are modelled from the
design document (sections 4.1 and 4.2): an N-byte register read/write with a
configurable byte order, and a read-modify-write bitfield accessor.

The device's register file is modelled as a total function from register
address to stored byte; all LTR390 registers are transmitted
least-significant-byte first (the only order the driver uses).
-/

namespace LTR390

/-- A register file: one stored byte per 8-bit register address. -/
def RegFile : Type := Nat → Nat

/-- Pointwise update of a register file at a single address. -/
def updF (s : RegFile) (a v : Nat) : RegFile :=
  fun x => if x = a then v else s x

/-- Modelled from the spec: Adafruit_I2CRegister::read with byteorder
LSBFIRST assembles `w` wire bytes starting at address `a`,
least-significant byte first, into one integer. -/
def regReadLSB (s : RegFile) : Nat → Nat → Nat
  | _, 0 => 0
  | a, w + 1 => s a + 256 * regReadLSB s (a + 1) w

/-- Modelled from the spec: Adafruit_I2CRegister::write with byteorder
LSBFIRST splits the value into `w` bytes, least-significant first, and
stores them at consecutive addresses starting at `a`. -/
def regWriteLSB (s : RegFile) : Nat → Nat → Nat → RegFile
  | _, 0, _ => s
  | a, w + 1, v => regWriteLSB (updF s a (v % 256)) (a + 1) w (v / 256)

/-- The register file is byte-valued: every stored cell fits in 8 bits. -/
def Bytes (s : RegFile) : Prop :=
  ∀ a, s a < 256

/-- Modelled from the spec: Adafruit_I2CRegisterBits::read performs a full
register read, right-shifts by the bit offset and masks to the bit width. -/
def bitsRead (s : RegFile) (a w bw off : Nat) : Nat :=
  (regReadLSB s a w >>> off) &&& (2 ^ bw - 1)

/-- Modelled from the spec: the full register value produced by a bitfield
write — the target bit range is cleared via the mask and the (truncated)
new value is ORed in at the bit offset. -/
def bfNew (full bw off v : Nat) : Nat :=
  (full ^^^ (full &&& ((2 ^ bw - 1) <<< off))) ||| ((v &&& (2 ^ bw - 1)) <<< off)

/-- Modelled from the spec: Adafruit_I2CRegisterBits::write reads the current
full register value, splices the new field value in, and writes the full
modified value back (read-modify-write). -/
def bitsWrite (s : RegFile) (a w bw off v : Nat) : RegFile :=
  regWriteLSB s a w (bfNew (regReadLSB s a w) bw off v)

/-! ### Basic register-level lemmas -/

theorem regWriteLSB_lt (s : RegFile) (a w v x : Nat) (hx : x < a) :
    regWriteLSB s a w v x = s x := by
  induction w generalizing s a v with
  | zero => rfl
  | succ w ih =>
      show regWriteLSB (updF s a (v % 256)) (a + 1) w (v / 256) x = s x
      rw [ih _ _ _ (by omega)]
      simp [updF]
      omega

theorem regWriteLSB_ge (s : RegFile) (a w v x : Nat) (hx : a + w ≤ x) :
    regWriteLSB s a w v x = s x := by
  induction w generalizing s a v with
  | zero => rfl
  | succ w ih =>
      show regWriteLSB (updF s a (v % 256)) (a + 1) w (v / 256) x = s x
      rw [ih _ _ _ (by omega)]
      simp [updF]
      omega

theorem regReadLSB_congr (s t : RegFile) (a w : Nat)
    (h : ∀ x, a ≤ x → x < a + w → s x = t x) :
    regReadLSB s a w = regReadLSB t a w := by
  induction w generalizing a with
  | zero => rfl
  | succ w ih =>
      show s a + 256 * regReadLSB s (a + 1) w = t a + 256 * regReadLSB t (a + 1) w
      rw [h a (by omega) (by omega), ih (a + 1) (fun x h1 h2 => h x (by omega) (by omega))]

theorem regReadLSB_regWriteLSB (s : RegFile) (a w v : Nat) :
    regReadLSB (regWriteLSB s a w v) a w = v % 256 ^ w := by
  induction w generalizing s a v with
  | zero => simp [regReadLSB, Nat.mod_one]
  | succ w ih =>
      show regReadLSB (regWriteLSB (updF s a (v % 256)) (a + 1) w (v / 256)) a (w + 1)
          = v % 256 ^ (w + 1)
      show (regWriteLSB (updF s a (v % 256)) (a + 1) w (v / 256)) a
            + 256 * regReadLSB (regWriteLSB (updF s a (v % 256)) (a + 1) w (v / 256)) (a + 1) w
          = v % 256 ^ (w + 1)
      rw [regWriteLSB_lt _ _ _ _ _ (by omega), ih]
      have hup : updF s a (v % 256) a = v % 256 := by simp [updF]
      rw [hup]
      have : (256 : Nat) ^ (w + 1) = 256 * 256 ^ w := by ring
      rw [this, Nat.mod_mul]

theorem regReadLSB_lt_two_pow (s : RegFile) (a w : Nat) (hs : Bytes s) :
    regReadLSB s a w < 2 ^ (8 * w) := by
  induction w generalizing a with
  | zero => simp [regReadLSB]
  | succ w ih =>
      show s a + 256 * regReadLSB s (a + 1) w < 2 ^ (8 * (w + 1))
      have h1 : s a < 256 := hs a
      have h2 : regReadLSB s (a + 1) w < 2 ^ (8 * w) := ih (a + 1)
      have h3 : (2 : Nat) ^ (8 * (w + 1)) = 256 * 2 ^ (8 * w) := by
        rw [show 8 * (w + 1) = 8 + 8 * w by ring, pow_add]
        norm_num
      have h4 : 256 * (regReadLSB s (a + 1) w + 1) ≤ 256 * 2 ^ (8 * w) :=
        Nat.mul_le_mul_left _ h2
      omega

theorem Bytes_regWriteLSB (s : RegFile) (a w v : Nat) (hs : Bytes s) :
    Bytes (regWriteLSB s a w v) := by
  induction w generalizing s a v with
  | zero => exact hs
  | succ w ih =>
      show Bytes (regWriteLSB (updF s a (v % 256)) (a + 1) w (v / 256))
      apply ih
      intro x
      by_cases hx : x = a <;> simp [updF, hx]
      · omega
      · exact hs x

theorem regReadLSB_regWriteLSB_disjoint (s : RegFile) (a wa b wb v : Nat)
    (h : b + wb ≤ a ∨ a + wa ≤ b) :
    regReadLSB (regWriteLSB s b wb v) a wa = regReadLSB s a wa := by
  apply regReadLSB_congr
  intro x hx1 hx2
  rcases h with h | h
  · exact regWriteLSB_ge _ _ _ _ _ (by omega)
  · exact regWriteLSB_lt _ _ _ _ _ (by omega)

/-! ### Bitfield-level lemmas -/

theorem land_two_pow_sub_one (x n : Nat) : x &&& (2 ^ n - 1) = x % 2 ^ n := by
  apply Nat.eq_of_testBit_eq
  intro i
  simp [Nat.testBit_and, Nat.testBit_mod_two_pow, Bool.and_comm]

theorem testBit_bfNew (full bw off v i : Nat) :
    Nat.testBit (bfNew full bw off v) i =
      if off ≤ i ∧ i < off + bw then Nat.testBit v (i - off)
      else Nat.testBit full i := by
  simp only [bfNew, Nat.testBit_or, Nat.testBit_xor, Nat.testBit_and,
    Nat.testBit_shiftLeft, Nat.testBit_two_pow_sub_one]
  by_cases h1 : off ≤ i
  · by_cases h2 : i - off < bw
    · have h3 : off ≤ i ∧ i < off + bw := by omega
      rw [if_pos h3]
      simp [h1, h2, ge_iff_le]
    · have h3 : ¬(off ≤ i ∧ i < off + bw) := by omega
      rw [if_neg h3]
      simp [h2]
  · have h3 : ¬(off ≤ i ∧ i < off + bw) := by omega
    rw [if_neg h3]
    simp [h1, ge_iff_le]

theorem bfNew_lt_two_pow (full bw off v n : Nat)
    (hfull : full < 2 ^ n) (h : bw + off ≤ n) :
    bfNew full bw off v < 2 ^ n := by
  apply Nat.lt_pow_two_of_testBit
  intro i hi
  rw [testBit_bfNew]
  split
  · omega
  · exact Nat.testBit_lt_two_pow
      (lt_of_lt_of_le hfull (Nat.pow_le_pow_right (by norm_num) hi))

theorem regReadLSB_bitsWrite (s : RegFile) (a w bw off v : Nat)
    (hs : Bytes s) (h : bw + off ≤ 8 * w) :
    regReadLSB (bitsWrite s a w bw off v) a w
      = bfNew (regReadLSB s a w) bw off v := by
  unfold bitsWrite
  rw [regReadLSB_regWriteLSB]
  rw [show (256 : Nat) ^ w = 2 ^ (8 * w) by
    rw [show (256 : Nat) = 2 ^ 8 by norm_num, ← pow_mul]]
  exact Nat.mod_eq_of_lt
    (bfNew_lt_two_pow _ _ _ _ _ (regReadLSB_lt_two_pow s a w hs) h)

theorem bitsRead_bitsWrite (s : RegFile) (a w bw off v : Nat)
    (hs : Bytes s) (h : bw + off ≤ 8 * w) :
    bitsRead (bitsWrite s a w bw off v) a w bw off = v % 2 ^ bw := by
  unfold bitsRead
  rw [regReadLSB_bitsWrite s a w bw off v hs h, land_two_pow_sub_one]
  apply Nat.eq_of_testBit_eq
  intro i
  simp only [Nat.testBit_mod_two_pow, Nat.testBit_shiftRight, testBit_bfNew]
  by_cases hi : i < bw
  · have h1 : off ≤ off + i ∧ off + i < off + bw := by omega
    simp [hi, h1]
  · simp [hi]

theorem testBit_bitsWrite_frame (s : RegFile) (a w bw off v i : Nat)
    (hs : Bytes s) (h : bw + off ≤ 8 * w) (hi : i < off ∨ off + bw ≤ i) :
    Nat.testBit (regReadLSB (bitsWrite s a w bw off v) a w) i
      = Nat.testBit (regReadLSB s a w) i := by
  rw [regReadLSB_bitsWrite s a w bw off v hs h, testBit_bfNew]
  have : ¬(off ≤ i ∧ i < off + bw) := by omega
  simp [this]

theorem bitsRead_bitsWrite_disjoint (s : RegFile) (a w bw off bw' off' v : Nat)
    (hs : Bytes s) (h : bw' + off' ≤ 8 * w)
    (hd : off + bw ≤ off' ∨ off' + bw' ≤ off) :
    bitsRead (bitsWrite s a w bw' off' v) a w bw off
      = bitsRead s a w bw off := by
  unfold bitsRead
  rw [land_two_pow_sub_one, land_two_pow_sub_one]
  apply Nat.eq_of_testBit_eq
  intro i
  simp only [Nat.testBit_mod_two_pow, Nat.testBit_shiftRight]
  by_cases hi : i < bw
  · have hfr := testBit_bitsWrite_frame s a w bw' off' v (off + i) hs h (by omega)
    simp [hi, hfr]
  · simp [hi]

theorem bitsRead_bitsWrite_other_reg (s : RegFile)
    (a wa bw off b wb bw' off' v : Nat)
    (h : b + wb ≤ a ∨ a + wa ≤ b) :
    bitsRead (bitsWrite s b wb bw' off' v) a wa bw off
      = bitsRead s a wa bw off := by
  unfold bitsRead bitsWrite
  rw [regReadLSB_regWriteLSB_disjoint s a wa b wb _ h]

theorem Bytes_bitsWrite (s : RegFile) (a w bw off v : Nat) (hs : Bytes s) :
    Bytes (bitsWrite s a w bw off v) :=
  Bytes_regWriteLSB _ _ _ _ hs

/-! ### Register map constants (Adafruit_LTR390.h) -/

def LTR390_MAIN_CTRL : Nat := 0x00

def LTR390_MEAS_RATE : Nat := 0x04

def LTR390_GAIN : Nat := 0x05

def LTR390_PART_ID : Nat := 0x06

def LTR390_MAIN_STATUS : Nat := 0x07

def LTR390_ALSDATA : Nat := 0x0D

def LTR390_UVSDATA : Nat := 0x10

def LTR390_INT_CFG : Nat := 0x19

def LTR390_INT_PST : Nat := 0x1A

def LTR390_THRESH_UP : Nat := 0x21

def LTR390_THRESH_LOW : Nat := 0x24

/-- Enum value of LTR390_MODE_ALS in ltr390_mode_t. -/
def LTR390_MODE_ALS : Nat := 0

/-- Enum value of LTR390_MODE_UVS in ltr390_mode_t. -/
def LTR390_MODE_UVS : Nat := 1

/-! ### Sensor driver operations over a faithful register file
(Adafruit_LTR390.cpp).  Enum-typed C++ parameters are modelled by their
underlying integer value so that raw casts outside the enum range can be
expressed. -/

/-- Adafruit_LTR390::enable — writes bit 1 of the main control register. -/
def enable (s : RegFile) (en : Bool) : RegFile :=
  bitsWrite s LTR390_MAIN_CTRL 1 1 1 (if en then 1 else 0)

/-- Adafruit_LTR390::enabled — reads bit 1 of the main control register. -/
def enabled (s : RegFile) : Bool :=
  bitsRead s LTR390_MAIN_CTRL 1 1 1 ≠ 0

/-- Adafruit_LTR390::setMode — writes bit 3 of the main control register. -/
def setMode (s : RegFile) (mode : Nat) : RegFile :=
  bitsWrite s LTR390_MAIN_CTRL 1 1 3 mode

/-- Adafruit_LTR390::getMode — reads bit 3 of the main control register. -/
def getMode (s : RegFile) : Nat :=
  bitsRead s LTR390_MAIN_CTRL 1 1 3

/-- Adafruit_LTR390::setGain — writes bits 0-2 of the gain register. -/
def setGain (s : RegFile) (gain : Nat) : RegFile :=
  bitsWrite s LTR390_GAIN 1 3 0 gain

/-- Adafruit_LTR390::getGain — reads bits 0-2 of the gain register. -/
def getGain (s : RegFile) : Nat :=
  bitsRead s LTR390_GAIN 1 3 0

/-- Adafruit_LTR390::setResolution — writes bits 4-6 of the measurement-rate
register. -/
def setResolution (s : RegFile) (res : Nat) : RegFile :=
  bitsWrite s LTR390_MEAS_RATE 1 3 4 res

/-- Adafruit_LTR390::getResolution — reads bits 4-6 of the measurement-rate
register. -/
def getResolution (s : RegFile) : Nat :=
  bitsRead s LTR390_MEAS_RATE 1 3 4

/-- Adafruit_LTR390::setThresholds — writes the 3-byte LSB-first lower
threshold at 0x24, then the 3-byte LSB-first upper threshold at 0x21. -/
def setThresholds (s : RegFile) (lower higher : Nat) : RegFile :=
  regWriteLSB (regWriteLSB s LTR390_THRESH_LOW 3 lower) LTR390_THRESH_UP 3 higher

/-- Adafruit_LTR390::configInterrupt — writes the enable flag to bit 2 of the
interrupt-config register, then (only when source matches one of the two
mode enum values) the source encoding to bits 4-5, then the persistence
count to bits 4-7 of the interrupt-persistence register.  The two source
comparisons are sequential non-exclusive ifs, exactly as in the C++. -/
def configInterrupt (s : RegFile) (en : Bool) (source persistance : Nat) :
    RegFile :=
  let s1 := bitsWrite s LTR390_INT_CFG 1 1 2 (if en then 1 else 0)
  let s2 := if source = LTR390_MODE_ALS then bitsWrite s1 LTR390_INT_CFG 1 2 4 1 else s1
  let s3 := if source = LTR390_MODE_UVS then bitsWrite s2 LTR390_INT_CFG 1 2 4 3 else s2
  bitsWrite s3 LTR390_INT_PST 1 4 4 persistance

/-- Adafruit_LTR390::readALS — one 3-byte LSB-first read of the ambient
data register. -/
def readALS (s : RegFile) : Nat :=
  regReadLSB s LTR390_ALSDATA 3

/-- Adafruit_LTR390::readUVS — one 3-byte LSB-first read of the UV data
register. -/
def readUVS (s : RegFile) : Nat :=
  regReadLSB s LTR390_UVSDATA 3

/-! ### Traced bus simulation
A simulated device for the lifecycle operations: the register file plus the
behaviours the design document's test scenarios require — whether the device
self-clears its soft-reset bit during the 10 ms delay, whether it drops the
acknowledgment of the soft-reset write (it resets mid-transaction), and
whether its enable bit is stuck (ignores writes).  Each driver operation
returns its C++ return value, the final device, and the list of bus-level
events it performed, in order. -/

/-- One bus-level event performed by the driver. -/
inductive BusOp where
  | readOp (addr w : Nat)
  | writeOp (addr w v : Nat) (ack : Bool)
  | delayOp (ms : Nat)
  | endOp
  | beginOp
deriving DecidableEq, Repr

/-- Simulated device: register file plus failure-scenario behaviour flags. -/
structure SimDevice where
  regs : RegFile
  selfClear : Bool
  dropAck : Bool
  enStuck : Bool

/-- Replace bit 1 of `v` by bit 1 of `old` (stuck enable bit). -/
def keepEnableBit (old v : Nat) : Nat :=
  (v ^^^ (v &&& 2)) ||| (old &&& 2)

/-- Device semantics of storing one byte: the wire byte is `v % 256`; a
device with a stuck enable bit keeps its old bit 1 on writes to the main
control register. -/
def devStore (d : SimDevice) (a v : Nat) : SimDevice :=
  let b := v % 256
  let b2 := if d.enStuck = true ∧ a = LTR390_MAIN_CTRL then
      keepEnableBit (d.regs a) b
    else b
  { d with regs := updF d.regs a b2 }

/-- Device semantics of the 10 ms delay: a device that completes its internal
reset clears bit 4 of the main control register. -/
def devDelay (d : SimDevice) : SimDevice :=
  if d.selfClear = true then
    let x := d.regs LTR390_MAIN_CTRL
    { d with regs := updF d.regs LTR390_MAIN_CTRL (x ^^^ (x &&& 16)) }
  else d

/-- Traced bitfield write to a single-byte register: read-modify-write, with
the acknowledgment dropped exactly when the device drops the ack of a main
control write whose stored value has the soft-reset bit set. -/
def devBitsWrite (d : SimDevice) (a bw off v : Nat) : SimDevice × List BusOp :=
  let nf := bfNew (regReadLSB d.regs a 1) bw off v
  let ack := !(d.dropAck && decide (a = LTR390_MAIN_CTRL) && Nat.testBit nf 4)
  (devStore d a nf, [BusOp.readOp a 1, BusOp.writeOp a 1 nf ack])

/-- Traced bitfield read from a single-byte register. -/
def devBitsRead (d : SimDevice) (a bw off : Nat) : Nat × List BusOp :=
  ((regReadLSB d.regs a 1 >>> off) &&& (2 ^ bw - 1), [BusOp.readOp a 1])

/-- Adafruit_LTR390::reset — writes 1 to bit 4 of the main control register,
delays 10 ms, closes and reopens the bus connection, re-reads bit 4 and
succeeds iff it reads back 0. -/
def reset (d : SimDevice) : Bool × SimDevice × List BusOp :=
  let (d1, t1) := devBitsWrite d LTR390_MAIN_CTRL 1 4 1
  let d2 := devDelay d1
  let (v, t2) := devBitsRead d2 LTR390_MAIN_CTRL 1 4
  (v == 0, d2, t1 ++ [BusOp.delayOp 10] ++ [BusOp.endOp, BusOp.beginOp] ++ t2)

/-- Adafruit_LTR390::begin — opens the bus, checks the top 4 bits of the
part-identifier register against 0xB, runs reset, enables the device and
re-reads the enable bit.  Any step failing returns false immediately. -/
def begin (d : SimDevice) (busOpens : Bool) : Bool × SimDevice × List BusOp :=
  if busOpens = false then (false, d, [])
  else
    let idv := regReadLSB d.regs LTR390_PART_ID 1
    let tId := [BusOp.readOp LTR390_PART_ID 1]
    if idv >>> 4 ≠ 0xB then (false, d, tId)
    else
      match reset d with
      | (rOk, d1, tR) =>
          if rOk = false then (false, d1, tId ++ tR)
          else
            let (d2, tE) := devBitsWrite d1 LTR390_MAIN_CTRL 1 1 1
            let (env, tE2) := devBitsRead d2 LTR390_MAIN_CTRL 1 1
            if env = 0 then (false, d2, tId ++ tR ++ tE ++ tE2)
            else (true, d2, tId ++ tR ++ tE ++ tE2)

/-- Adafruit_LTR390::readALS over the traced simulation: the returned value
and the bus events performed. -/
def readALSTr (d : SimDevice) : Nat × List BusOp :=
  (regReadLSB d.regs LTR390_ALSDATA 3, [BusOp.readOp LTR390_ALSDATA 3])

/-- Adafruit_LTR390::readUVS over the traced simulation: the returned value
and the bus events performed. -/
def readUVSTr (d : SimDevice) : Nat × List BusOp :=
  (regReadLSB d.regs LTR390_UVSDATA 3, [BusOp.readOp LTR390_UVSDATA 3])

/-! ### Transport-failure model for the typed setters
Each write transaction consumes one acknowledgment from an oracle list; a
failed write does not land on the device.  Every setter returns PUnit — the
model of the C++ void return — together with the new register file and the
remaining oracle. -/

/-- One write transaction under an acknowledgment oracle; a dropped
acknowledgment means the write does not land. -/
def txWrite (s : RegFile) (a w v : Nat) (acks : List Bool) :
    RegFile × List Bool :=
  match acks with
  | [] => (regWriteLSB s a w v, [])
  | ack :: rest => ((if ack then regWriteLSB s a w v else s), rest)

/-- Bitfield read-modify-write under an acknowledgment oracle. -/
def txBitsWrite (s : RegFile) (a bw off v : Nat) (acks : List Bool) :
    RegFile × List Bool :=
  txWrite s a 1 (bfNew (regReadLSB s a 1) bw off v) acks

/-- Adafruit_LTR390::enable under the transport-failure model. -/
def enableTx (s : RegFile) (en : Bool) (acks : List Bool) :
    PUnit × RegFile × List Bool :=
  (PUnit.unit, txBitsWrite s LTR390_MAIN_CTRL 1 1 (if en then 1 else 0) acks)

/-- Adafruit_LTR390::setMode under the transport-failure model. -/
def setModeTx (s : RegFile) (mode : Nat) (acks : List Bool) :
    PUnit × RegFile × List Bool :=
  (PUnit.unit, txBitsWrite s LTR390_MAIN_CTRL 1 3 mode acks)

/-- Adafruit_LTR390::setGain under the transport-failure model. -/
def setGainTx (s : RegFile) (gain : Nat) (acks : List Bool) :
    PUnit × RegFile × List Bool :=
  (PUnit.unit, txBitsWrite s LTR390_GAIN 3 0 gain acks)

/-- Adafruit_LTR390::setResolution under the transport-failure model. -/
def setResolutionTx (s : RegFile) (res : Nat) (acks : List Bool) :
    PUnit × RegFile × List Bool :=
  (PUnit.unit, txBitsWrite s LTR390_MEAS_RATE 3 4 res acks)

/-- Adafruit_LTR390::setThresholds under the transport-failure model. -/
def setThresholdsTx (s : RegFile) (lower higher : Nat) (acks : List Bool) :
    PUnit × RegFile × List Bool :=
  let r1 := txWrite s LTR390_THRESH_LOW 3 lower acks
  (PUnit.unit, txWrite r1.1 LTR390_THRESH_UP 3 higher r1.2)

/-- Adafruit_LTR390::configInterrupt under the transport-failure model. -/
def configInterruptTx (s : RegFile) (en : Bool) (source persistance : Nat)
    (acks : List Bool) : PUnit × RegFile × List Bool :=
  let r1 := txBitsWrite s LTR390_INT_CFG 1 2 (if en then 1 else 0) acks
  let r2 := if source = LTR390_MODE_ALS then
      txBitsWrite r1.1 LTR390_INT_CFG 2 4 1 r1.2
    else r1
  let r3 := if source = LTR390_MODE_UVS then
      txBitsWrite r2.1 LTR390_INT_CFG 2 4 3 r2.2
    else r2
  (PUnit.unit, txBitsWrite r3.1 LTR390_INT_PST 4 4 persistance r3.2)

/-! ### Evaluation lemmas for configInterrupt -/

theorem configInterrupt_als (s : RegFile) (en : Bool) (pst : Nat) :
    configInterrupt s en LTR390_MODE_ALS pst =
      bitsWrite (bitsWrite (bitsWrite s LTR390_INT_CFG 1 1 2 (if en then 1 else 0))
          LTR390_INT_CFG 1 2 4 1) LTR390_INT_PST 1 4 4 pst := by
  simp [configInterrupt, LTR390_MODE_ALS, LTR390_MODE_UVS]

theorem configInterrupt_uvs (s : RegFile) (en : Bool) (pst : Nat) :
    configInterrupt s en LTR390_MODE_UVS pst =
      bitsWrite (bitsWrite (bitsWrite s LTR390_INT_CFG 1 1 2 (if en then 1 else 0))
          LTR390_INT_CFG 1 2 4 3) LTR390_INT_PST 1 4 4 pst := by
  simp [configInterrupt, LTR390_MODE_ALS, LTR390_MODE_UVS]

theorem configInterrupt_other (s : RegFile) (en : Bool) (source pst : Nat)
    (h0 : source ≠ LTR390_MODE_ALS) (h1 : source ≠ LTR390_MODE_UVS) :
    configInterrupt s en source pst =
      bitsWrite (bitsWrite s LTR390_INT_CFG 1 1 2 (if en then 1 else 0))
        LTR390_INT_PST 1 4 4 pst := by
  simp [configInterrupt, h0, h1]

theorem ite_mod_two (en : Bool) :
    ((if en then (1 : Nat) else 0)) % 2 ^ 1 = (if en then 1 else 0) := by
  cases en <;> norm_num

theorem configInterrupt_enable_bit (s : RegFile) (en : Bool) (source pst : Nat)
    (hs : Bytes s) :
    bitsRead (configInterrupt s en source pst) LTR390_INT_CFG 1 1 2
      = (if en then 1 else 0) := by
  have hb1 : Bytes (bitsWrite s LTR390_INT_CFG 1 1 2 (if en then 1 else 0)) :=
    Bytes_bitsWrite _ _ _ _ _ _ hs
  by_cases h0 : source = LTR390_MODE_ALS
  · rw [h0, configInterrupt_als,
      bitsRead_bitsWrite_other_reg _ _ _ _ _ _ _ _ _ _ (Or.inr (by decide)),
      bitsRead_bitsWrite_disjoint _ _ _ _ _ _ _ _ hb1 (by norm_num) (Or.inl (by norm_num)),
      bitsRead_bitsWrite _ _ _ _ _ _ hs (by norm_num)]
    exact ite_mod_two en
  · by_cases h1 : source = LTR390_MODE_UVS
    · rw [h1, configInterrupt_uvs,
        bitsRead_bitsWrite_other_reg _ _ _ _ _ _ _ _ _ _ (Or.inr (by decide)),
        bitsRead_bitsWrite_disjoint _ _ _ _ _ _ _ _ hb1 (by norm_num) (Or.inl (by norm_num)),
        bitsRead_bitsWrite _ _ _ _ _ _ hs (by norm_num)]
      exact ite_mod_two en
    · rw [configInterrupt_other s en source pst h0 h1,
        bitsRead_bitsWrite_other_reg _ _ _ _ _ _ _ _ _ _ (Or.inr (by decide)),
        bitsRead_bitsWrite _ _ _ _ _ _ hs (by norm_num)]
      exact ite_mod_two en

theorem configInterrupt_src_als (s : RegFile) (en : Bool) (pst : Nat)
    (hs : Bytes s) :
    bitsRead (configInterrupt s en LTR390_MODE_ALS pst) LTR390_INT_CFG 1 2 4 = 1 := by
  have hb1 : Bytes (bitsWrite s LTR390_INT_CFG 1 1 2 (if en then 1 else 0)) :=
    Bytes_bitsWrite _ _ _ _ _ _ hs
  rw [configInterrupt_als,
    bitsRead_bitsWrite_other_reg _ _ _ _ _ _ _ _ _ _ (Or.inr (by decide)),
    bitsRead_bitsWrite _ _ _ _ _ _ hb1 (by norm_num)]
  norm_num

theorem configInterrupt_src_uvs (s : RegFile) (en : Bool) (pst : Nat)
    (hs : Bytes s) :
    bitsRead (configInterrupt s en LTR390_MODE_UVS pst) LTR390_INT_CFG 1 2 4 = 3 := by
  have hb1 : Bytes (bitsWrite s LTR390_INT_CFG 1 1 2 (if en then 1 else 0)) :=
    Bytes_bitsWrite _ _ _ _ _ _ hs
  rw [configInterrupt_uvs,
    bitsRead_bitsWrite_other_reg _ _ _ _ _ _ _ _ _ _ (Or.inr (by decide)),
    bitsRead_bitsWrite _ _ _ _ _ _ hb1 (by norm_num)]
  norm_num

theorem configInterrupt_src_other (s : RegFile) (en : Bool) (source pst : Nat)
    (hs : Bytes s) (h0 : source ≠ LTR390_MODE_ALS) (h1 : source ≠ LTR390_MODE_UVS) :
    bitsRead (configInterrupt s en source pst) LTR390_INT_CFG 1 2 4
      = bitsRead s LTR390_INT_CFG 1 2 4 := by
  rw [configInterrupt_other s en source pst h0 h1,
    bitsRead_bitsWrite_other_reg _ _ _ _ _ _ _ _ _ _ (Or.inr (by decide)),
    bitsRead_bitsWrite_disjoint _ _ _ _ _ _ _ _ hs (by norm_num) (Or.inr (by norm_num))]

theorem configInterrupt_pst (s : RegFile) (en : Bool) (source pst : Nat)
    (hs : Bytes s) :
    bitsRead (configInterrupt s en source pst) LTR390_INT_PST 1 4 4
      = pst % 16 := by
  have hb1 : Bytes (bitsWrite s LTR390_INT_CFG 1 1 2 (if en then 1 else 0)) :=
    Bytes_bitsWrite _ _ _ _ _ _ hs
  by_cases h0 : source = LTR390_MODE_ALS
  · rw [h0, configInterrupt_als,
      bitsRead_bitsWrite _ _ _ _ _ _ (Bytes_bitsWrite _ _ _ _ _ _ hb1) (by norm_num)]
    norm_num
  · by_cases h1 : source = LTR390_MODE_UVS
    · rw [h1, configInterrupt_uvs,
        bitsRead_bitsWrite _ _ _ _ _ _ (Bytes_bitsWrite _ _ _ _ _ _ hb1) (by norm_num)]
      norm_num
    · rw [configInterrupt_other s en source pst h0 h1,
        bitsRead_bitsWrite _ _ _ _ _ _ hb1 (by norm_num)]
      norm_num

/-- An all-zero register file, used to instantiate the theorems at a
concrete input. -/
def zeroRegs : RegFile := fun _ => 0

theorem zeroRegs_bytes : Bytes zeroRegs := by
  intro a
  norm_num [zeroRegs]

/-! ### Claim theorems (pure register-file layer) -/

/-- C6: for every bitfield descriptor with bit_width + bit_offset ≤
8 * register_byte_width, over a byte-valued register file, writing V then
reading the field back yields V masked to bit_width bits (wider values are
silently truncated, not rejected), and every bit of the register outside
the field keeps its pre-write value. -/
theorem claim6_bitfield_roundtrip_frame (s : RegFile) (a w bw off v : Nat)
    (hs : Bytes s) (h : bw + off ≤ 8 * w) :
    bitsRead (bitsWrite s a w bw off v) a w bw off = v % 2 ^ bw
    ∧ ∀ i, i < off ∨ off + bw ≤ i →
        Nat.testBit (regReadLSB (bitsWrite s a w bw off v) a w) i
          = Nat.testBit (regReadLSB s a w) i :=
  ⟨bitsRead_bitsWrite s a w bw off v hs h,
   fun i hi => testBit_bitsWrite_frame s a w bw off v i hs h hi⟩

theorem claim6_witness :
    bitsRead (bitsWrite zeroRegs 0 1 3 2 60 : RegFile) 0 1 3 2 = 60 % 2 ^ 3
    ∧ Nat.testBit (regReadLSB (bitsWrite zeroRegs 0 1 3 2 60 : RegFile) 0 1) 1
        = Nat.testBit (regReadLSB zeroRegs 0 1) 1 :=
  ⟨(claim6_bitfield_roundtrip_frame zeroRegs 0 1 3 2 60 zeroRegs_bytes (by norm_num)).1,
   (claim6_bitfield_roundtrip_frame zeroRegs 0 1 3 2 60 zeroRegs_bytes (by norm_num)).2
     1 (by norm_num)⟩

/-- C4: over a faithful loopback bus, each typed setter/getter pair reads
back what was written — setGain/getGain for every 3-bit value 0..7,
setResolution/getResolution for every encoding 0..5, setMode/getMode for
the two mode values 0 and 1. -/
theorem claim4_setter_getter_roundtrip (s : RegFile) (hs : Bytes s) :
    (∀ g, g < 8 → getGain (setGain s g) = g)
    ∧ (∀ r, r < 6 → getResolution (setResolution s r) = r)
    ∧ (∀ m, m < 2 → getMode (setMode s m) = m) := by
  refine ⟨fun g hg => ?_, fun r hr => ?_, fun m hm => ?_⟩
  · unfold getGain setGain
    rw [bitsRead_bitsWrite _ _ _ _ _ _ hs (by norm_num)]
    exact Nat.mod_eq_of_lt (by omega)
  · unfold getResolution setResolution
    rw [bitsRead_bitsWrite _ _ _ _ _ _ hs (by norm_num)]
    exact Nat.mod_eq_of_lt (by omega)
  · unfold getMode setMode
    rw [bitsRead_bitsWrite _ _ _ _ _ _ hs (by norm_num)]
    exact Nat.mod_eq_of_lt (by omega)

theorem claim4_witness :
    getGain (setGain zeroRegs 7) = 7
    ∧ getResolution (setResolution zeroRegs 5) = 5
    ∧ getMode (setMode zeroRegs 1) = 1 :=
  ⟨(claim4_setter_getter_roundtrip zeroRegs zeroRegs_bytes).1 7 (by norm_num),
   (claim4_setter_getter_roundtrip zeroRegs zeroRegs_bytes).2.1 5 (by norm_num),
   (claim4_setter_getter_roundtrip zeroRegs zeroRegs_bytes).2.2 1 (by norm_num)⟩

/-- C5: setThresholds writes the lower value to the 3-byte LSB-first
register at 0x24 and the upper value to the 3-byte LSB-first register at
0x21, with no ordering constraint between the two; values that fit in 20
bits read back exactly. -/
theorem claim5_setThresholds_roundtrip (s : RegFile) (lower higher : Nat)
    (hl : lower < 2 ^ 20) (hh : higher < 2 ^ 20) :
    regReadLSB (setThresholds s lower higher) LTR390_THRESH_LOW 3 = lower
    ∧ regReadLSB (setThresholds s lower higher) LTR390_THRESH_UP 3 = higher := by
  unfold setThresholds
  constructor
  · rw [regReadLSB_regWriteLSB_disjoint _ _ _ _ _ _ (Or.inl (by decide)),
      regReadLSB_regWriteLSB]
    exact Nat.mod_eq_of_lt (lt_of_lt_of_le hl (by norm_num))
  · rw [regReadLSB_regWriteLSB]
    exact Nat.mod_eq_of_lt (lt_of_lt_of_le hh (by norm_num))

theorem claim5_witness :
    regReadLSB (setThresholds zeroRegs 100 500000) LTR390_THRESH_LOW 3 = 100
    ∧ regReadLSB (setThresholds zeroRegs 100 500000) LTR390_THRESH_UP 3 = 500000 :=
  claim5_setThresholds_roundtrip zeroRegs 100 500000 (by norm_num) (by norm_num)

/-- C10: for every pair of 32-bit inputs, setThresholds transmits exactly
the low 24 bits of each value to the 3-byte threshold registers — values
in [2^20, 2^24) are written in full, and the top byte of values ≥ 2^24 is
silently dropped. -/
theorem claim10_setThresholds_low24 (s : RegFile) (lower higher : Nat)
    (_hl : lower < 2 ^ 32) (_hh : higher < 2 ^ 32) :
    regReadLSB (setThresholds s lower higher) LTR390_THRESH_LOW 3 = lower % 2 ^ 24
    ∧ regReadLSB (setThresholds s lower higher) LTR390_THRESH_UP 3 = higher % 2 ^ 24 := by
  unfold setThresholds
  constructor
  · rw [regReadLSB_regWriteLSB_disjoint _ _ _ _ _ _ (Or.inl (by decide)),
      regReadLSB_regWriteLSB]
    norm_num
  · rw [regReadLSB_regWriteLSB]
    norm_num

theorem claim10_witness :
    regReadLSB (setThresholds zeroRegs 1048576 16777223) LTR390_THRESH_LOW 3 = 1048576
    ∧ regReadLSB (setThresholds zeroRegs 1048576 16777223) LTR390_THRESH_UP 3 = 7 := by
  have h := claim10_setThresholds_low24 zeroRegs 1048576 16777223
    (by norm_num) (by norm_num)
  constructor
  · rw [h.1]
    norm_num
  · rw [h.2]
    norm_num

/-- C3: configInterrupt writes the enable flag to bit 2 of the
interrupt-config register at 0x19, source encoding 1 (ambient) or 3 (UV)
to bits 4-5, and the persistence count to bits 4-7 of the
interrupt-persistence register at 0x1A; in particular
configInterrupt(true, AMBIENT, 2) yields source bits 01, enable bit 1,
persistence 0010, and configInterrupt(true, UV, 0) yields source bits 11. -/
theorem claim3_configInterrupt_encoding (s : RegFile) (en : Bool)
    (source pst : Nat) (hs : Bytes s) :
    bitsRead (configInterrupt s en source pst) LTR390_INT_CFG 1 1 2
        = (if en then 1 else 0)
    ∧ (source = LTR390_MODE_ALS →
        bitsRead (configInterrupt s en source pst) LTR390_INT_CFG 1 2 4 = 1)
    ∧ (source = LTR390_MODE_UVS →
        bitsRead (configInterrupt s en source pst) LTR390_INT_CFG 1 2 4 = 3)
    ∧ bitsRead (configInterrupt s en source pst) LTR390_INT_PST 1 4 4
        = pst % 16 :=
  ⟨configInterrupt_enable_bit s en source pst hs,
   fun h => by rw [h]; exact configInterrupt_src_als s en pst hs,
   fun h => by rw [h]; exact configInterrupt_src_uvs s en pst hs,
   configInterrupt_pst s en source pst hs⟩

theorem claim3_witness :
    bitsRead (configInterrupt zeroRegs true LTR390_MODE_ALS 2) LTR390_INT_CFG 1 2 4 = 1
    ∧ bitsRead (configInterrupt zeroRegs true LTR390_MODE_ALS 2) LTR390_INT_CFG 1 1 2 = 1
    ∧ bitsRead (configInterrupt zeroRegs true LTR390_MODE_ALS 2) LTR390_INT_PST 1 4 4 = 2
    ∧ bitsRead (configInterrupt zeroRegs true LTR390_MODE_UVS 0) LTR390_INT_CFG 1 2 4 = 3 := by
  have hA := claim3_configInterrupt_encoding zeroRegs true LTR390_MODE_ALS 2 zeroRegs_bytes
  have hU := claim3_configInterrupt_encoding zeroRegs true LTR390_MODE_UVS 0 zeroRegs_bytes
  refine ⟨hA.2.1 rfl, ?_, ?_, hU.2.2.1 rfl⟩
  · rw [hA.1]
    norm_num
  · rw [hA.2.2.2]

/-- A register file with interrupt-source bits 4-5 preset to 3, used to
instantiate the invalid-source claim. -/
def srcRegs : RegFile := fun a => if a = LTR390_INT_CFG then 0x30 else 0

theorem srcRegs_bytes : Bytes srcRegs := by
  intro a
  simp only [srcRegs]
  split <;> norm_num

/-- C9: when configInterrupt is called with a source value that is neither
mode enum value (a raw integer ≥ 2), the interrupt-source bits 4-5 are
left unchanged, while the enable bit and the persistence field are still
written. -/
theorem claim9_configInterrupt_invalid_source (s : RegFile) (en : Bool)
    (source pst : Nat) (hs : Bytes s) (hsrc : 2 ≤ source) :
    bitsRead (configInterrupt s en source pst) LTR390_INT_CFG 1 2 4
        = bitsRead s LTR390_INT_CFG 1 2 4
    ∧ bitsRead (configInterrupt s en source pst) LTR390_INT_CFG 1 1 2
        = (if en then 1 else 0)
    ∧ bitsRead (configInterrupt s en source pst) LTR390_INT_PST 1 4 4
        = pst % 16 :=
  ⟨configInterrupt_src_other s en source pst hs
      (by simp only [LTR390_MODE_ALS]; omega)
      (by simp only [LTR390_MODE_UVS]; omega),
   configInterrupt_enable_bit s en source pst hs,
   configInterrupt_pst s en source pst hs⟩

theorem claim9_witness :
    bitsRead (configInterrupt srcRegs true 2 5) LTR390_INT_CFG 1 2 4
        = bitsRead srcRegs LTR390_INT_CFG 1 2 4
    ∧ bitsRead srcRegs LTR390_INT_CFG 1 2 4 = 3
    ∧ bitsRead (configInterrupt srcRegs true 2 5) LTR390_INT_CFG 1 1 2 = 1
    ∧ bitsRead (configInterrupt srcRegs true 2 5) LTR390_INT_PST 1 4 4 = 5 := by
  have h := claim9_configInterrupt_invalid_source srcRegs true 2 5 srcRegs_bytes
    (by norm_num)
  refine ⟨h.1, by decide, ?_, ?_⟩
  · rw [h.2.1]
    norm_num
  · rw [h.2.2]

/-! ### Helper lemmas for the traced simulation -/

theorem regReadLSB_one (s : RegFile) (a : Nat) : regReadLSB s a 1 = s a := by
  simp [regReadLSB]

theorem testBit_bfNew_set4 (x : Nat) : Nat.testBit (bfNew x 1 4 1) 4 = true := by
  rw [testBit_bfNew, if_pos (by omega : 4 ≤ 4 ∧ 4 < 4 + 1)]
  decide

theorem testBit_bfNew_out (x bw off v i : Nat) (h : ¬(off ≤ i ∧ i < off + bw)) :
    Nat.testBit (bfNew x bw off v) i = Nat.testBit x i := by
  rw [testBit_bfNew, if_neg h]

theorem testBit_two_false (i : Nat) (h : i ≠ 1) : Nat.testBit 2 i = false := by
  rw [show (2 : Nat) = 2 ^ 1 by norm_num, Nat.testBit_two_pow]
  simp [Ne.symm h]

theorem testBit_sixteen (i : Nat) : Nat.testBit 16 i = decide (4 = i) := by
  rw [show (16 : Nat) = 2 ^ 4 by norm_num, Nat.testBit_two_pow]

theorem testBit_keepEnableBit (old v i : Nat) :
    Nat.testBit (keepEnableBit old v) i
      = if i = 1 then Nat.testBit old 1 else Nat.testBit v i := by
  by_cases h : i = 1
  · subst h
    simp [keepEnableBit, Nat.testBit_or, Nat.testBit_xor, Nat.testBit_and,
      show Nat.testBit 2 1 = true from by decide]
  · simp [keepEnableBit, Nat.testBit_or, Nat.testBit_xor, Nat.testBit_and,
      testBit_two_false i h, h]

theorem testBit_mod256 (v i : Nat) (h : i < 8) :
    Nat.testBit (v % 256) i = Nat.testBit v i := by
  rw [show (256 : Nat) = 2 ^ 8 by norm_num, Nat.testBit_mod_two_pow]
  simp [h]

theorem devStore_regs_at (d : SimDevice) (a v : Nat) :
    (devStore d a v).regs a
      = if d.enStuck = true ∧ a = LTR390_MAIN_CTRL then
          keepEnableBit (d.regs a) (v % 256)
        else v % 256 := by
  simp [devStore, updF]

theorem devStore_mainctrl_bit4 (d : SimDevice) (v : Nat) :
    Nat.testBit ((devStore d LTR390_MAIN_CTRL v).regs LTR390_MAIN_CTRL) 4
      = Nat.testBit v 4 := by
  rw [devStore_regs_at]
  split
  · rw [testBit_keepEnableBit]
    simp [testBit_mod256 v 4 (by norm_num)]
  · exact testBit_mod256 v 4 (by norm_num)

theorem devStore_mainctrl_bit1 (d : SimDevice) (v : Nat) :
    Nat.testBit ((devStore d LTR390_MAIN_CTRL v).regs LTR390_MAIN_CTRL) 1
      = (if d.enStuck = true then Nat.testBit (d.regs LTR390_MAIN_CTRL) 1
         else Nat.testBit v 1) := by
  rw [devStore_regs_at]
  by_cases h : d.enStuck = true
  · simp [h, testBit_keepEnableBit]
  · simp [h, testBit_mod256 v 1 (by norm_num)]

theorem devDelay_selfClear_regs (d : SimDevice) (h : d.selfClear = true) :
    (devDelay d).regs LTR390_MAIN_CTRL
      = (d.regs LTR390_MAIN_CTRL ^^^ (d.regs LTR390_MAIN_CTRL &&& 16)) := by
  simp [devDelay, h, updF]

theorem devDelay_not_selfClear (d : SimDevice) (h : d.selfClear = false) :
    devDelay d = d := by
  simp [devDelay, h]

theorem devDelay_enStuck (d : SimDevice) : (devDelay d).enStuck = d.enStuck := by
  unfold devDelay
  split <;> rfl

theorem testBit_clear16_four (x : Nat) :
    Nat.testBit (x ^^^ (x &&& 16)) 4 = false := by
  simp [Nat.testBit_xor, Nat.testBit_and, testBit_sixteen]

theorem testBit_clear16_ne (x i : Nat) (h : i ≠ 4) :
    Nat.testBit (x ^^^ (x &&& 16)) i = Nat.testBit x i := by
  simp [Nat.testBit_xor, Nat.testBit_and, testBit_sixteen, Ne.symm h]

theorem extract_bit_beq_zero (x off : Nat) :
    ((x >>> off &&& (2 ^ 1 - 1)) == 0) = !Nat.testBit x off := by
  have h1 : x >>> off &&& (2 ^ 1 - 1) = x / 2 ^ off % 2 := by
    rw [land_two_pow_sub_one, Nat.shiftRight_eq_div_pow]
    norm_num
  rw [h1, ← Nat.toNat_testBit]
  cases Nat.testBit x off <;> rfl

theorem extract_bit_eq_zero_iff (x off : Nat) :
    (x >>> off &&& (2 ^ 1 - 1)) = 0 ↔ Nat.testBit x off = false := by
  have h1 : x >>> off &&& (2 ^ 1 - 1) = x / 2 ^ off % 2 := by
    rw [land_two_pow_sub_one, Nat.shiftRight_eq_div_pow]
    norm_num
  rw [h1, ← Nat.toNat_testBit]
  cases Nat.testBit x off <;> simp

/-! ### Characterization of the reset sequence -/

theorem reset_eq (d : SimDevice) :
    reset d =
      (((regReadLSB (devDelay (devStore d LTR390_MAIN_CTRL
            (bfNew (d.regs LTR390_MAIN_CTRL) 1 4 1))).regs LTR390_MAIN_CTRL 1 >>> 4)
          &&& (2 ^ 1 - 1)) == 0,
       devDelay (devStore d LTR390_MAIN_CTRL (bfNew (d.regs LTR390_MAIN_CTRL) 1 4 1)),
       [BusOp.readOp LTR390_MAIN_CTRL 1,
        BusOp.writeOp LTR390_MAIN_CTRL 1 (bfNew (d.regs LTR390_MAIN_CTRL) 1 4 1)
          (!d.dropAck),
        BusOp.delayOp 10, BusOp.endOp, BusOp.beginOp,
        BusOp.readOp LTR390_MAIN_CTRL 1]) := by
  simp [reset, devBitsWrite, devBitsRead, regReadLSB_one, testBit_bfNew_set4]

theorem reset_result_testBit (d : SimDevice) :
    (reset d).1 = !Nat.testBit ((reset d).2.1.regs LTR390_MAIN_CTRL) 4 := by
  rw [reset_eq]
  rw [regReadLSB_one, extract_bit_beq_zero]

theorem reset_d2_bit4 (d : SimDevice) :
    Nat.testBit ((devDelay (devStore d LTR390_MAIN_CTRL
        (bfNew (d.regs LTR390_MAIN_CTRL) 1 4 1))).regs LTR390_MAIN_CTRL) 4
      = !d.selfClear := by
  cases hc : d.selfClear
  · rw [devDelay_not_selfClear (devStore d LTR390_MAIN_CTRL
        (bfNew (d.regs LTR390_MAIN_CTRL) 1 4 1))
        (show (devStore d LTR390_MAIN_CTRL
          (bfNew (d.regs LTR390_MAIN_CTRL) 1 4 1)).selfClear = false from hc),
      devStore_mainctrl_bit4, testBit_bfNew_set4]
    rfl
  · rw [devDelay_selfClear_regs (devStore d LTR390_MAIN_CTRL
        (bfNew (d.regs LTR390_MAIN_CTRL) 1 4 1))
        (show (devStore d LTR390_MAIN_CTRL
          (bfNew (d.regs LTR390_MAIN_CTRL) 1 4 1)).selfClear = true from hc),
      testBit_clear16_four]
    rfl

theorem reset_result_selfClear (d : SimDevice) : (reset d).1 = d.selfClear := by
  rw [reset_result_testBit]
  have h2 : (reset d).2.1 = devDelay (devStore d LTR390_MAIN_CTRL
      (bfNew (d.regs LTR390_MAIN_CTRL) 1 4 1)) := by
    rw [reset_eq]
  rw [h2, reset_d2_bit4, Bool.not_not]

/-- C1: reset() writes 1 to the soft-reset bitfield (bit 4 of the main
control register), waits a fixed 10 ms, then closes and reopens the bus
connection before re-reading the soft-reset bit, and returns true iff that
re-read yields 0.  The bus-event trace is the same fixed sequence for every
device — in particular the end/begin recovery and the validation read still
happen when the write's acknowledgment is dropped (the ack flag on the
write event is the only thing dropAck changes, and the result does not
depend on it); a device that self-clears the bit yields success, one that
never clears it yields failure. -/
theorem claim1_reset_sequence (d : SimDevice) :
    (reset d).2.2 = [BusOp.readOp LTR390_MAIN_CTRL 1,
        BusOp.writeOp LTR390_MAIN_CTRL 1 (bfNew (d.regs LTR390_MAIN_CTRL) 1 4 1)
          (!d.dropAck),
        BusOp.delayOp 10, BusOp.endOp, BusOp.beginOp,
        BusOp.readOp LTR390_MAIN_CTRL 1]
    ∧ Nat.testBit (bfNew (d.regs LTR390_MAIN_CTRL) 1 4 1) 4 = true
    ∧ ((reset d).1 = true ↔
        Nat.testBit ((reset d).2.1.regs LTR390_MAIN_CTRL) 4 = false)
    ∧ (d.selfClear = true → (reset d).1 = true)
    ∧ (d.selfClear = false → (reset d).1 = false)
    ∧ ∀ b, (reset { d with dropAck := b }).1 = (reset d).1 := by
  refine ⟨?_, testBit_bfNew_set4 _, ?_, ?_, ?_, ?_⟩
  · rw [reset_eq]
  · rw [reset_result_testBit]
    cases Nat.testBit ((reset d).2.1.regs LTR390_MAIN_CTRL) 4 <;> simp
  · intro h
    rw [reset_result_selfClear, h]
  · intro h
    rw [reset_result_selfClear, h]
  · intro b
    rw [reset_result_selfClear, reset_result_selfClear]

/-- A self-clearing well-behaved device over the all-zero register file. -/
def devGood : SimDevice := ⟨zeroRegs, true, false, false⟩

/-- A device that never clears its soft-reset bit and drops the ack. -/
def devStubborn : SimDevice := ⟨zeroRegs, false, true, false⟩

theorem claim1_witness :
    (reset devGood).1 = true ∧ (reset devStubborn).1 = false :=
  ⟨(claim1_reset_sequence devGood).2.2.2.1 rfl,
   (claim1_reset_sequence devStubborn).2.2.2.2.1 rfl⟩

/-- C7: readALS() and readUVS() each perform exactly one 3-byte LSB-first
read of the ambient-data register at 0x0D (resp. UV-data at 0x10) — the
trace holds a single read event, so no register write and no consult of
the data-ready status occur — and return the assembled raw value, which
fits a 32-bit integer for a byte-valued device; the value depends only on
the currently latched register bytes. -/
theorem claim7_read_data (d : SimDevice) :
    readALSTr d = (d.regs 0x0D + 256 * d.regs 0x0E + 65536 * d.regs 0x0F,
        [BusOp.readOp LTR390_ALSDATA 3])
    ∧ readUVSTr d = (d.regs 0x10 + 256 * d.regs 0x11 + 65536 * d.regs 0x12,
        [BusOp.readOp LTR390_UVSDATA 3])
    ∧ (Bytes d.regs → (readALSTr d).1 < 2 ^ 32 ∧ (readUVSTr d).1 < 2 ^ 32) := by
  refine ⟨?_, ?_, fun hb => ⟨?_, ?_⟩⟩
  · simp only [readALSTr, regReadLSB, LTR390_ALSDATA, Prod.mk.injEq]
    norm_num
    ring
  · simp only [readUVSTr, regReadLSB, LTR390_UVSDATA, Prod.mk.injEq]
    norm_num
    ring
  · exact lt_of_lt_of_le (regReadLSB_lt_two_pow _ _ _ hb) (by norm_num)
  · exact lt_of_lt_of_le (regReadLSB_lt_two_pow _ _ _ hb) (by norm_num)

theorem claim7_witness :
    (readALSTr devGood).1 < 2 ^ 32 ∧ (readUVSTr devGood).1 < 2 ^ 32 :=
  (claim7_read_data devGood).2.2 zeroRegs_bytes

/-- C8: no typed setter reports bus transport failure to the caller — each
returns the model of the C++ void (PUnit.unit) for every input, every
register file, and every acknowledgment oracle, so the caller-visible
result is independent of the bus outcome; begin() and reset() are the only
operations whose (Boolean) result surfaces failure. -/
theorem claim8_setters_no_failure (s : RegFile) (acks acks2 : List Bool)
    (en : Bool) (mode gain res lower higher source pst : Nat) :
    (enableTx s en acks).1 = PUnit.unit
    ∧ (setModeTx s mode acks).1 = PUnit.unit
    ∧ (setGainTx s gain acks).1 = PUnit.unit
    ∧ (setResolutionTx s res acks).1 = PUnit.unit
    ∧ (setThresholdsTx s lower higher acks).1 = PUnit.unit
    ∧ (configInterruptTx s en source pst acks).1 = PUnit.unit
    ∧ (setThresholdsTx s lower higher acks).1
        = (setThresholdsTx s lower higher acks2).1
    ∧ (configInterruptTx s en source pst acks).1
        = (configInterruptTx s en source pst acks2).1 :=
  ⟨rfl, rfl, rfl, rfl, rfl, rfl, rfl, rfl⟩

/-! ### Helper lemmas for the begin sequence -/

theorem devStore_selfClear (d : SimDevice) (a v : Nat) :
    (devStore d a v).selfClear = d.selfClear := rfl

theorem devStore_enStuck (d : SimDevice) (a v : Nat) :
    (devStore d a v).enStuck = d.enStuck := rfl

theorem testBit_bfNew_set1 (x : Nat) : Nat.testBit (bfNew x 1 1 1) 1 = true := by
  rw [testBit_bfNew, if_pos (by omega : 1 ≤ 1 ∧ 1 < 1 + 1)]
  decide

theorem testBit_bfNew41_one (x : Nat) :
    Nat.testBit (bfNew x 1 4 1) 1 = Nat.testBit x 1 :=
  testBit_bfNew_out x 1 4 1 1 (by omega)

theorem shiftRight_mod_two_eq_one_iff (x off : Nat) :
    x >>> off % 2 = 1 ↔ Nat.testBit x off = true := by
  rw [Nat.shiftRight_eq_div_pow, Nat.testBit_to_div_mod]
  simp

theorem shiftRight_mod_two_eq_zero_iff (x off : Nat) :
    x >>> off % 2 = 0 ↔ Nat.testBit x off = false := by
  rw [Nat.shiftRight_eq_div_pow, Nat.testBit_to_div_mod]
  simp

theorem devDelay_mainctrl_bit1 (d : SimDevice) :
    Nat.testBit ((devDelay d).regs LTR390_MAIN_CTRL) 1
      = Nat.testBit (d.regs LTR390_MAIN_CTRL) 1 := by
  unfold devDelay
  split
  · simp [updF, testBit_clear16_ne _ 1 (by norm_num)]
  · rfl

theorem reset_d2_bit1 (d : SimDevice) :
    Nat.testBit ((devDelay (devStore d LTR390_MAIN_CTRL
        (bfNew (d.regs LTR390_MAIN_CTRL) 1 4 1))).regs LTR390_MAIN_CTRL) 1
      = Nat.testBit (d.regs LTR390_MAIN_CTRL) 1 := by
  rw [devDelay_mainctrl_bit1, devStore_mainctrl_bit1]
  by_cases h : d.enStuck = true
  · simp [h]
  · simp [h, testBit_bfNew41_one]

theorem begin_enable_readback (d : SimDevice) :
    Nat.testBit ((devStore (devDelay (devStore d LTR390_MAIN_CTRL
        (bfNew (d.regs LTR390_MAIN_CTRL) 1 4 1))) LTR390_MAIN_CTRL
        (bfNew ((devDelay (devStore d LTR390_MAIN_CTRL
            (bfNew (d.regs LTR390_MAIN_CTRL) 1 4 1))).regs LTR390_MAIN_CTRL) 1 1 1)).regs
        LTR390_MAIN_CTRL) 1
      = (if d.enStuck = true then Nat.testBit (d.regs LTR390_MAIN_CTRL) 1
         else true) := by
  rw [devStore_mainctrl_bit1]
  rw [show (devDelay (devStore d LTR390_MAIN_CTRL
      (bfNew (d.regs LTR390_MAIN_CTRL) 1 4 1))).enStuck = d.enStuck
    from devDelay_enStuck _]
  by_cases h : d.enStuck = true
  · simp [h, reset_d2_bit1]
  · simp [h, testBit_bfNew_set1]

/-- C2: for every device state whose part-identifier top 4 bits differ from
0xB, begin() returns false after the single identity read, performing no
reset bus events and neither writing nor reading the enable bit (the trace
is exactly one read of the part-id register and the device is untouched);
and begin() returns true exactly when the bus opens, the identity check
passes, reset() succeeds (the device self-clears the soft-reset bit), and
the enable-bit readback after enable(true) is 1 (the enable bit is not
stuck, or was already set). -/
theorem claim2_begin_guard (d : SimDevice) (b : Bool) :
    (d.regs LTR390_PART_ID >>> 4 ≠ 0xB →
        begin d true = (false, d, [BusOp.readOp LTR390_PART_ID 1]))
    ∧ ((begin d b).1 = true ↔
        b = true ∧ d.regs LTR390_PART_ID >>> 4 = 0xB ∧ d.selfClear = true
          ∧ (d.enStuck = false ∨ Nat.testBit (d.regs LTR390_MAIN_CTRL) 1 = true)) := by
  constructor
  · intro h
    simp only [begin, regReadLSB_one]
    rw [if_neg (by simp : ¬(true = false)), if_pos h]
  · cases b
    · simp [begin]
    · by_cases hid : d.regs LTR390_PART_ID >>> 4 = 0xB
      · cases hc : d.selfClear
        · simp [begin, regReadLSB_one, reset_eq, shiftRight_mod_two_eq_one_iff,
            reset_d2_bit4, hc, hid, devBitsWrite, devBitsRead]
        · by_cases he : d.enStuck = true
          · cases hbit : Nat.testBit (d.regs LTR390_MAIN_CTRL) 1
            · simp [begin, regReadLSB_one, reset_eq, shiftRight_mod_two_eq_one_iff,
                shiftRight_mod_two_eq_zero_iff, reset_d2_bit4, begin_enable_readback,
                hc, hid, he, hbit, devBitsWrite, devBitsRead]
            · simp [begin, regReadLSB_one, reset_eq, shiftRight_mod_two_eq_one_iff,
                shiftRight_mod_two_eq_zero_iff, reset_d2_bit4, begin_enable_readback,
                hc, hid, he, hbit, devBitsWrite, devBitsRead]
          · simp [begin, regReadLSB_one, reset_eq, shiftRight_mod_two_eq_one_iff,
              shiftRight_mod_two_eq_zero_iff, reset_d2_bit4, begin_enable_readback,
              hc, hid, he, devBitsWrite, devBitsRead]
      · simp [begin, regReadLSB_one, hid]

/-- A well-behaved device whose part-id register reports 0xB2. -/
def okRegs : RegFile := fun a => if a = LTR390_PART_ID then 0xB2 else 0

theorem claim2_witness :
    begin devGood true = (false, devGood, [BusOp.readOp LTR390_PART_ID 1])
    ∧ (begin ⟨okRegs, true, false, false⟩ true).1 = true
    ∧ (begin ⟨okRegs, true, false, true⟩ true).1 = false := by
  refine ⟨(claim2_begin_guard devGood true).1 (by decide), ?_, ?_⟩
  · rw [(claim2_begin_guard ⟨okRegs, true, false, false⟩ true).2]
    exact ⟨rfl, by decide, rfl, Or.inl rfl⟩
  · have h := (claim2_begin_guard ⟨okRegs, true, false, true⟩ true).2
    have hfalse : ¬((begin ⟨okRegs, true, false, true⟩ true).1 = true) := by
      rw [h]
      rintro ⟨-, -, -, h2 | h2⟩
      · exact Bool.noConfusion h2
      · exact absurd h2 (by decide)
    cases hb : (begin ⟨okRegs, true, false, true⟩ true).1
    · rfl
    · exact absurd hb hfalse

end LTR390
